import Mathlib

/-!
Shallow embedding of the data-cleaning and metric-derivation pipeline of
the COVID-19 Global Data Tracker notebook (src/main.ipynb).

Modelling conventions:
* A dataframe is a `List` of records; column order and row order follow the
  source.
* A pandas float64 cell is a `PFloat`: `nan` (the missing-value marker,
  "no value"), `pinf`/`ninf` (the IEEE infinities produced by division by
  zero), or `val q` with `q : ℚ` (exact rational arithmetic stands in for
  the real-valued computation the spec describes).
* A nullable numeric column entry is `Option ℚ` (`none` = "no value").
* The `date` column starts as text (`DateVal.text`) at load time and is
  overwritten by `pd.to_datetime` with parsed date values
  (`DateVal.stamp`); a stamp encodes a calendar date as y*10000+m*100+d so
  that numeric order agrees with calendar order for valid dates.
* Exceptions raised by notebook cells are modelled with `Except NBErr`.
-/

namespace CovidTracker

/-- A cell of the `date` column: text as loaded from the file, or a
parsed date value (`pd.Timestamp`, day precision), encoded as
y*10000 + m*100 + d. -/
inductive DateVal where
  | text (s : String)
  | stamp (n : Nat)
deriving DecidableEq, Repr, Inhabited

/-- A pandas float64 cell: NaN (the "no value" marker), the two
infinities, or a finite value modelled as an exact rational. -/
inductive PFloat where
  | nan
  | pinf
  | ninf
  | val (q : ℚ)
deriving DecidableEq, Repr, Inhabited

/-- One row of the source table (`owid-covid-data.csv`), restricted to the
columns the pipeline reads. `none` is pandas NaN ("no value"). -/
structure Record where
  location : String
  iso_code : String
  date : DateVal
  total_cases : Option ℚ
  new_cases : Option ℚ
  total_deaths : Option ℚ
  new_deaths : Option ℚ
  total_vaccinations : Option ℚ
  people_vaccinated : Option ℚ
  population : Option ℚ
  total_cases_per_million : Option ℚ
deriving DecidableEq, Repr, Inhabited

/-- A row of `df_filtered` after the cleaning cell: the record plus the
derived `death_rate` column. -/
structure FilteredRow where
  record : Record
  death_rate : PFloat
deriving DecidableEq, Repr, Inhabited

/-- A row of `df_latest` after the vaccination cell adds the
`pct_vaccinated` column. -/
structure LatestRow where
  row : FilteredRow
  pct_vaccinated : PFloat
deriving DecidableEq, Repr, Inhabited

/-- Errors a notebook cell can raise: `NameError` (use of the unbound name
`df` after a failed load) and the error `pd.to_datetime` raises on an
unparseable date. -/
inductive NBErr where
  | nameError
  | dateParseError
deriving DecidableEq, Repr, Inhabited

/-- The configured country allow-list (`countries` in the notebook). -/
def countries : List String :=
  ["United States", "India", "Brazil", "United Kingdom", "Kenya", "South Africa"]

/-- Splits a character list at each dash, mirroring the field structure of
an ISO `YYYY-MM-DD` date. -/
def splitDashAux : List Char → List Char → List (List Char)
  | [], acc => [acc.reverse]
  | c :: cs, acc =>
    if c = '-' then acc.reverse :: splitDashAux cs []
    else splitDashAux cs (c :: acc)

/-- Value of a decimal digit character, `none` for a non-digit. -/
def digitVal (c : Char) : Option Nat :=
  if '0' ≤ c ∧ c ≤ '9' then some (c.toNat - 48) else none

/-- Reads a nonempty all-digit character list as a decimal number. -/
def digitsToNatAux : List Char → Nat → Option Nat
  | [], acc => some acc
  | c :: cs, acc =>
    match digitVal c with
    | none => none
    | some d => digitsToNatAux cs (10 * acc + d)

def digitsToNat : List Char → Option Nat
  | [] => none
  | l => digitsToNatAux l 0

/-- Models `pd.to_datetime` on one cell for ISO-format `YYYY-MM-DD` text
(the format of the source dataset's date column): returns the encoded
date value, or `none` when the text does not match the expected format
(in which case `pd.to_datetime` raises). -/
def parseDate (s : String) : Option Nat :=
  match splitDashAux s.toList [] with
  | [ys, ms, ds] =>
    match digitsToNat ys, digitsToNat ms, digitsToNat ds with
    | some y, some m, some d =>
      if 1 ≤ m ∧ m ≤ 12 ∧ 1 ≤ d ∧ d ≤ 31 then some (y * 10000 + m * 100 + d)
      else none
    | _, _, _ => none
  | _ => none

/-- `df['date'] = pd.to_datetime(df['date'])`: overwrite the date column
with parsed date values; raise (here: return `Except.error`) when a value
does not parse. A cell already holding a date value passes through. -/
def toDatetime : List Record → Except NBErr (List Record)
  | [] => .ok []
  | r :: rs =>
    match r.date with
    | .text s =>
      match parseDate s with
      | none => .error .dateParseError
      | some n =>
        match toDatetime rs with
        | .error e => .error e
        | .ok rs2 => .ok ({ r with date := .stamp n } :: rs2)
    | .stamp _ =>
      match toDatetime rs with
      | .error e => .error e
      | .ok rs2 => .ok (r :: rs2)

/-- `df_filtered[key_columns] = df_filtered[key_columns].fillna(0)`:
replace "no value" with 0 in exactly the seven key columns. -/
def fillKey (r : Record) : Record :=
  { r with
    total_cases := some (r.total_cases.getD 0)
    new_cases := some (r.new_cases.getD 0)
    total_deaths := some (r.total_deaths.getD 0)
    new_deaths := some (r.new_deaths.getD 0)
    total_vaccinations := some (r.total_vaccinations.getD 0)
    people_vaccinated := some (r.people_vaccinated.getD 0)
    population := some (r.population.getD 0) }

/-- IEEE-style float division as pandas performs it on two float cells:
a nonzero denominator gives the exact quotient, 0/0 gives NaN, and a
nonzero numerator over 0 gives a signed infinity. -/
def fdiv (d c : ℚ) : PFloat :=
  if c ≠ 0 then .val (d / c)
  else if d = 0 then .nan
  else if 0 < d then .pinf
  else .ninf

/-- Pandas columnwise division of two nullable cells: any NaN operand
propagates NaN. -/
def pdivCell (d c : Option ℚ) : PFloat :=
  match d, c with
  | some dv, some cv => fdiv dv cv
  | _, _ => .nan

/-- `.replace([np.inf, -np.inf], np.nan)` on one cell. -/
def replaceInfWithNan : PFloat → PFloat
  | .pinf => .nan
  | .ninf => .nan
  | p => p

/-- The two death-rate lines of the cleaning cell:
`df_filtered['death_rate'] = df_filtered['total_deaths'] / df_filtered['total_cases']`
followed by the inf → NaN replacement. -/
def deathRate (r : Record) : PFloat :=
  replaceInfWithNan (pdivCell r.total_deaths r.total_cases)

/-- Multiplication of a float cell by the scalar 100, as in
`(... / ...) * 100`. -/
def pmul100 : PFloat → PFloat
  | .nan => .nan
  | .pinf => .pinf
  | .ninf => .ninf
  | .val q => .val (q * 100)

/-- `df_latest['pct_vaccinated'] = (df_latest['people_vaccinated'] / df_latest['population']) * 100`
on one row. -/
def pctVaccinated (r : Record) : PFloat :=
  pmul100 (pdivCell r.people_vaccinated r.population)

/-- The date key of a cell: `some` for a parsed date, `none` for text
(pandas would treat a non-datetime column differently; after
`to_datetime` every cell is a stamp). -/
def dateKey : DateVal → Option Nat
  | .text _ => none
  | .stamp n => some n

/-- `df_filtered['date'].max()`: the maximum date of the column, `none`
(pandas NaT) when the frame is empty; non-date cells are skipped the way
`max` skips NaT. -/
def maxDate : List FilteredRow → Option Nat
  | [] => none
  | r :: rs =>
    match maxDate rs with
    | none => dateKey r.record.date
    | some m =>
      match dateKey r.record.date with
      | none => some m
      | some n => some (max n m)

/-- The date key of a record through `to_datetime`: the stamp it holds or
the stamp its text would parse to. Used to state uniqueness hypotheses
about the source table. -/
def recDateKey (r : Record) : Option Nat :=
  match r.date with
  | .text s => parseDate s
  | .stamp n => some n

/-- Everything the cleaning, snapshot, vaccination and choropleth cells
compute from the loaded table. -/
structure CleanOutput where
  df : List Record
  df_filtered : List FilteredRow
  latest_date : Option Nat
  df_latest : List FilteredRow
  df_latest_pct : List LatestRow
  df_global_latest : List Record
deriving DecidableEq, Repr, Inhabited

/-- The data-transformation cells of the notebook, in source order:
date conversion on the full table, country filter into a copy, fill of
the seven key columns on the copy, death-rate derivation, latest-date
snapshot (`df_latest['date'] == latest_date`, which is empty when
`latest_date` is NaT), the `pct_vaccinated` column on the snapshot copy,
and the choropleth input `df_global_latest = df[df['date'] == latest_date]`
selected from the full table with the same `latest_date`. -/
def cleanPipeline (t : List Record) : Except NBErr CleanOutput :=
  match toDatetime t with
  | .error e => .error e
  | .ok df =>
    let dfF := (df.filter (fun r => decide (r.location ∈ countries))).map fillKey
    let df_filtered := dfF.map (fun r => FilteredRow.mk r (deathRate r))
    let latest := maxDate df_filtered
    let df_latest :=
      match latest with
      | none => []
      | some m => df_filtered.filter (fun fr => decide (fr.record.date = .stamp m))
    let df_latest_pct := df_latest.map (fun fr => LatestRow.mk fr (pctVaccinated fr.record))
    let df_global_latest :=
      match latest with
      | none => []
      | some m => df.filter (fun r => decide (r.date = .stamp m))
    .ok ⟨df, df_filtered, latest, df_latest, df_latest_pct, df_global_latest⟩

/-- The load cell: on success bind `df` and print the success and shape
lines; on `FileNotFoundError` print the two instructional lines and leave
`df` unbound. Returns (printed lines, optional bound table). -/
def loadStage (file : Option (List Record)) : List String × Option (List Record) :=
  match file with
  | some t =>
    (["Data loaded successfully!", "Shape: (" ++ toString t.length ++ ", 12)"], some t)
  | none =>
    (["Error: File not found. Please download the dataset first.",
      "Download from: https://ourworldindata.org/covid-cases"], none)

/-- The exploration cell (`print(df.info())` …): raises `NameError` when
`df` was never bound by the load cell. -/
def explorationStage (mdf : Option (List Record)) : Except NBErr Unit :=
  match mdf with
  | none => .error .nameError
  | some _ => .ok ()

/-- Run-all semantics of the notebook's data cells: load, then
exploration (which raises `NameError` and stops execution when the load
failed), then the cleaning pipeline. Returns the printed lines of the
load cell together with the pipeline outcome. -/
def runNotebook (file : Option (List Record)) : List String × Except NBErr CleanOutput :=
  let p := loadStage file
  match explorationStage p.2 with
  | .error e => (p.1, .error e)
  | .ok _ =>
    match p.2 with
    | none => (p.1, .error .nameError)
    | some t => (p.1, cleanPipeline t)

/-- Spec-side definition, for comparison only: "max(date) computed
independently over the full (unfiltered) Table", following the spec's
words for the Global Latest Snapshot date. -/
def specGlobalMaxDate : List Record → Option Nat
  | [] => none
  | r :: rs =>
    match specGlobalMaxDate rs with
    | none => dateKey r.date
    | some m =>
      match dateKey r.date with
      | none => some m
      | some n => some (max n m)

/-- Whether a date cell holds a parsed date value. -/
def DateVal.isStamp : DateVal → Bool
  | .text _ => false
  | .stamp _ => true

/-- How `to_datetime` relates an input row to its output row: only the
date field changes, it becomes a parsed date value, and that value is the
parse of the loaded text (or the stamp already present). -/
def convRel (r r2 : Record) : Prop :=
  r2 = { r with date := r2.date } ∧
  DateVal.isStamp r2.date = true ∧
  dateKey r2.date = recDateKey r

/-- Convenience constructor for a loaded row (date still text). -/
def mkRow (loc iso ds : String) (tc nc td nd tv pv pop cpm : Option ℚ) : Record :=
  ⟨loc, iso, .text ds, tc, nc, td, nd, tv, pv, pop, cpm⟩

/-- A small concrete input table: three configured countries (Brazil,
Kenya with several missing metrics, United Kingdom missing
`people_vaccinated`) at 2021-04-01, and one non-configured country
(France) whose feed extends one day further, to 2021-04-02. -/
def TA : List Record :=
  [mkRow "Brazil" "BRA" "2021-04-01" (some 100) (some 5) (some 10) (some 1)
     (some 1000) (some 800) (some 212000000) (some 47),
   mkRow "Kenya" "KEN" "2021-04-01" (some 0) (some 0) (some 0) none
     none none (some 53000000) none,
   mkRow "France" "FRA" "2021-04-02" (some 50) (some 2) (some 3) (some 1)
     none none none none,
   mkRow "United Kingdom" "GBR" "2021-04-01" (some 200) (some 4) (some 20) (some 2)
     (some 500) none (some 67000000) (some 90)]

/-- The pipeline output on `TA`. -/
def OA : CleanOutput :=
  match cleanPipeline TA with
  | .ok o => o
  | .error _ => default

/-- A concrete input table none of whose rows matches a configured
country: the Filtered Table is empty. -/
def TB : List Record :=
  [mkRow "France" "FRA" "2021-04-02" (some 50) none none none none none none none]

/-- The pipeline output on `TB`. -/
def OB : CleanOutput :=
  match cleanPipeline TB with
  | .ok o => o
  | .error _ => default

lemma toDatetime_forall₂ {t l : List Record} (h : toDatetime t = .ok l) :
    List.Forall₂ convRel t l := by
  induction t generalizing l with
  | nil =>
    simp only [toDatetime] at h
    cases h
    exact List.Forall₂.nil
  | cons r rs ih =>
    cases hdate : r.date with
    | text s =>
      cases hp : parseDate s with
      | none =>
        simp only [toDatetime, hdate, hp] at h
        exact Except.noConfusion h
      | some n =>
        cases hrec : toDatetime rs with
        | error e =>
          simp only [toDatetime, hdate, hp, hrec] at h
          exact Except.noConfusion h
        | ok rs2 =>
          simp only [toDatetime, hdate, hp, hrec, Except.ok.injEq] at h
          subst h
          refine List.Forall₂.cons ⟨rfl, rfl, ?_⟩ (ih hrec)
          simp [dateKey, recDateKey, hdate, hp]
    | stamp n =>
      cases hrec : toDatetime rs with
      | error e =>
        simp only [toDatetime, hdate, hrec] at h
        exact Except.noConfusion h
      | ok rs2 =>
        simp only [toDatetime, hdate, hrec, Except.ok.injEq] at h
        subst h
        refine List.Forall₂.cons ⟨?_, ?_, ?_⟩ (ih hrec)
        · cases r; simp
        · simp [hdate, DateVal.isStamp]
        · simp [dateKey, recDateKey, hdate]

lemma forall₂_mem_right {α β : Type} {R : α → β → Prop} {l : List α}
    {l2 : List β} (h : List.Forall₂ R l l2) {b : β} (hb : b ∈ l2) :
    ∃ a, a ∈ l ∧ R a b := by
  induction h with
  | nil => cases hb
  | cons hr _ ih =>
    rcases List.mem_cons.1 hb with hb1 | hb2
    · exact ⟨_, List.mem_cons_self _ _, hb1 ▸ hr⟩
    · rcases ih hb2 with ⟨a, ha, har⟩
      exact ⟨a, List.mem_cons_of_mem _ ha, har⟩

lemma forall₂_getD {α β : Type} {R : α → β → Prop} {l : List α}
    {l2 : List β} (h : List.Forall₂ R l l2) (i : Nat) (d : α) (d2 : β)
    (hi : i < l.length) : R (l.getD i d) (l2.getD i d2) := by
  induction h generalizing i with
  | nil => cases hi
  | cons hr hrest ih =>
    cases i with
    | zero => simpa using hr
    | succ j =>
      have hj : j < _ := Nat.lt_of_succ_lt_succ hi
      simpa using ih j hj

lemma pairwise_of_forall₂ {α β : Type} {R : α → β → Prop}
    {P : α → α → Prop} {Q : β → β → Prop} {l : List α} {l2 : List β}
    (h : List.Forall₂ R l l2) (hp : List.Pairwise P l)
    (hc : ∀ a a2 b b2, R a a2 → R b b2 → P a b → Q a2 b2) :
    List.Pairwise Q l2 := by
  induction h with
  | nil => exact List.Pairwise.nil
  | cons hr hrest ih =>
    rcases List.pairwise_cons.1 hp with ⟨hhead, htail⟩
    refine List.pairwise_cons.2 ⟨?_, ih htail⟩
    intro b2 hb2
    rcases forall₂_mem_right hrest hb2 with ⟨b, hb, hbr⟩
    exact hc _ _ _ _ hr hbr (hhead b hb)

lemma getD_mem {α : Type} (l : List α) (i : Nat) (d : α)
    (hi : i < l.length) : l.getD i d ∈ l := by
  induction l generalizing i with
  | nil => cases hi
  | cons a rest ih =>
    cases i with
    | zero => simp [List.getD]
    | succ j =>
      have hj : j < rest.length := Nat.lt_of_succ_lt_succ hi
      simpa [List.getD] using Or.inr (ih j hj)

lemma maxDate_ne_none {l : List FilteredRow} {fr : FilteredRow}
    (hfr : fr ∈ l) {n : Nat} (hn : dateKey fr.record.date = some n) :
    maxDate l ≠ none := by
  induction l with
  | nil => cases hfr
  | cons a rest ih =>
    rcases List.mem_cons.1 hfr with h1 | h2
    · subst h1
      cases hrest : maxDate rest with
      | none => simp [maxDate, hrest, hn]
      | some m2 => simp [maxDate, hrest, hn]
    · cases hrest : maxDate rest with
      | none => exact absurd hrest (ih h2)
      | some m2 => cases hk : dateKey a.record.date <;> simp [maxDate, hrest, hk]

lemma maxDate_le {l : List FilteredRow} {m : Nat} (hm : maxDate l = some m)
    {fr : FilteredRow} (hfr : fr ∈ l) {n : Nat}
    (hn : dateKey fr.record.date = some n) : n ≤ m := by
  induction l generalizing m with
  | nil => cases hfr
  | cons a rest ih =>
    rcases List.mem_cons.1 hfr with h1 | h2
    · subst h1
      cases hrest : maxDate rest with
      | none =>
        simp only [maxDate, hrest, hn, Option.some.injEq] at hm
        exact Nat.le_of_eq hm
      | some m2 =>
        simp only [maxDate, hrest, hn, Option.some.injEq] at hm
        subst hm
        exact Nat.le_max_left _ _
    · cases hrest : maxDate rest with
      | none => exact absurd hrest (maxDate_ne_none h2 hn)
      | some m2 =>
        cases hk : dateKey a.record.date with
        | none =>
          simp only [maxDate, hrest, hk, Option.some.injEq] at hm
          subst hm
          exact ih hrest h2
        | some n2 =>
          simp only [maxDate, hrest, hk, Option.some.injEq] at hm
          subst hm
          exact Nat.le_trans (ih hrest h2) (Nat.le_max_right _ _)

lemma maxDate_mem {l : List FilteredRow} {m : Nat}
    (hm : maxDate l = some m) :
    ∃ fr, fr ∈ l ∧ dateKey fr.record.date = some m := by
  induction l generalizing m with
  | nil => cases hm
  | cons a rest ih =>
    cases hrest : maxDate rest with
    | none =>
      simp only [maxDate, hrest] at hm
      exact ⟨a, List.mem_cons_self _ _, hm⟩
    | some m2 =>
      cases hk : dateKey a.record.date with
      | none =>
        simp only [maxDate, hrest, hk, Option.some.injEq] at hm
        subst hm
        rcases ih hrest with ⟨fr, hfr, hkey⟩
        exact ⟨fr, List.mem_cons_of_mem _ hfr, hkey⟩
      | some n2 =>
        simp only [maxDate, hrest, hk, Option.some.injEq] at hm
        subst hm
        rcases Nat.le_total n2 m2 with hle | hle
        · rcases ih hrest with ⟨fr, hfr, hkey⟩
          refine ⟨fr, List.mem_cons_of_mem _ hfr, ?_⟩
          rw [hkey, Nat.max_eq_right hle]
        · refine ⟨a, List.mem_cons_self _ _, ?_⟩
          rw [hk, Nat.max_eq_left hle]

/-- Inversion of the pipeline: on success, each output component is the
corresponding stage applied to the earlier ones. -/
lemma cleanPipeline_inv {t : List Record} {o : CleanOutput}
    (h : cleanPipeline t = .ok o) :
    toDatetime t = .ok o.df ∧
    o.df_filtered =
      ((o.df.filter (fun r => decide (r.location ∈ countries))).map fillKey).map
        (fun r => FilteredRow.mk r (deathRate r)) ∧
    o.latest_date = maxDate o.df_filtered ∧
    o.df_latest =
      (match o.latest_date with
       | none => []
       | some m => o.df_filtered.filter (fun fr => decide (fr.record.date = .stamp m))) ∧
    o.df_latest_pct = o.df_latest.map (fun fr => LatestRow.mk fr (pctVaccinated fr.record)) ∧
    o.df_global_latest =
      (match o.latest_date with
       | none => []
       | some m => o.df.filter (fun r => decide (r.date = .stamp m))) := by
  unfold cleanPipeline at h
  cases htd : toDatetime t with
  | error e =>
    rw [htd] at h
    exact Except.noConfusion h
  | ok df =>
    rw [htd] at h
    simp only [Except.ok.injEq] at h
    subst h
    exact ⟨rfl, rfl, rfl, rfl, rfl, rfl⟩

/-- A row is in `df_filtered` exactly when it is built (fill plus
death-rate column) from a date-converted row whose location is
configured. -/
lemma mem_df_filtered_iff {t : List Record} {o : CleanOutput}
    (h : cleanPipeline t = .ok o) {fr : FilteredRow} :
    fr ∈ o.df_filtered ↔
      ∃ r2, r2 ∈ o.df ∧ r2.location ∈ countries ∧
        fr = FilteredRow.mk (fillKey r2) (deathRate (fillKey r2)) := by
  rw [(cleanPipeline_inv h).2.1]
  simp only [List.mem_map, List.mem_filter, decide_eq_true_eq]
  constructor
  · rintro ⟨r3, ⟨r2, ⟨hr2, hloc⟩, rfl⟩, rfl⟩
    exact ⟨r2, hr2, hloc, rfl⟩
  · rintro ⟨r2, hr2, hloc, rfl⟩
    exact ⟨fillKey r2, ⟨r2, ⟨hr2, hloc⟩, rfl⟩, rfl⟩

lemma pairwise_getD {α : Type} {R : α → α → Prop} {l : List α}
    (h : List.Pairwise R l) (i j : Nat) (d : α) (hij : i < j)
    (hj : j < l.length) : R (l.getD i d) (l.getD j d) := by
  induction l generalizing i j with
  | nil => cases hj
  | cons a rest ih =>
    rcases List.pairwise_cons.1 h with ⟨hhead, htail⟩
    cases i with
    | zero =>
      cases j with
      | zero => cases hij
      | succ j2 =>
        have hj2 : j2 < rest.length := Nat.lt_of_succ_lt_succ hj
        simpa [List.getD] using hhead _ (getD_mem rest j2 d hj2)
    | succ i2 =>
      cases j with
      | zero => cases hij
      | succ j2 =>
        simpa [List.getD] using
          ih htail i2 j2 (Nat.lt_of_succ_lt_succ hij) (Nat.lt_of_succ_lt_succ hj)

/-- The non-date fields of a converted row equal those of its source
row. -/
lemma convRel_fields {r r2 : Record} (hc : convRel r r2) :
    r2.location = r.location ∧ r2.iso_code = r.iso_code ∧
    r2.total_cases = r.total_cases ∧ r2.new_cases = r.new_cases ∧
    r2.total_deaths = r.total_deaths ∧ r2.new_deaths = r.new_deaths ∧
    r2.total_vaccinations = r.total_vaccinations ∧
    r2.people_vaccinated = r.people_vaccinated ∧
    r2.population = r.population ∧
    r2.total_cases_per_million = r.total_cases_per_million := by
  rcases hc with ⟨heq, _, _⟩
  refine ⟨?_, ?_, ?_, ?_, ?_, ?_, ?_, ?_, ?_, ?_⟩ <;>
    (conv_lhs => rw [heq])

/-- C1: for every row of the Filtered Table with total_cases > 0, the
derived death_rate column equals total_deaths / total_cases exactly; for
every row with total_cases = 0, death_rate is the missing-value marker
NaN ("no value"), never an infinity. -/
theorem claim1_death_rate (t : List Record) (o : CleanOutput)
    (h : cleanPipeline t = .ok o) (fr : FilteredRow)
    (hfr : fr ∈ o.df_filtered) (d c : ℚ)
    (hd : fr.record.total_deaths = some d)
    (hc : fr.record.total_cases = some c) :
    (0 < c → fr.death_rate = PFloat.val (d / c)) ∧
    (c = 0 → fr.death_rate = PFloat.nan) := by
  rcases (mem_df_filtered_iff h).1 hfr with ⟨r2, _, _, rfl⟩
  simp only at hd hc
  constructor
  · intro hpos
    have hcne : c ≠ 0 := ne_of_gt hpos
    simp [deathRate, pdivCell, hd, hc, fdiv, hcne, replaceInfWithNan]
  · intro h0
    subst h0
    by_cases hd0 : d = 0
    · simp [deathRate, pdivCell, hd, hc, fdiv, hd0, replaceInfWithNan]
    · by_cases hdp : 0 < d
      · simp [deathRate, pdivCell, hd, hc, fdiv, hd0, hdp, replaceInfWithNan]
      · simp [deathRate, pdivCell, hd, hc, fdiv, hd0, hdp, replaceInfWithNan]

/-- Witness for C1 at the Brazil row of the concrete table `TA`
(total_cases 100, total_deaths 10): death_rate is exactly 10/100. -/
theorem claim1_death_rate_witness :
    cleanPipeline TA = .ok OA ∧
    (OA.df_filtered.getD 0 default).record.total_deaths = some 10 ∧
    (OA.df_filtered.getD 0 default).record.total_cases = some 100 ∧
    (0 < (100 : ℚ) →
      (OA.df_filtered.getD 0 default).death_rate = PFloat.val (10 / 100)) ∧
    ((100 : ℚ) = 0 →
      (OA.df_filtered.getD 0 default).death_rate = PFloat.nan) := by
  have hm : OA.df_filtered.getD 0 default ∈ OA.df_filtered :=
    getD_mem _ 0 _ (by decide)
  have h2 := claim1_death_rate TA OA rfl _ hm 10 100 rfl rfl
  exact ⟨rfl, rfl, rfl, h2.1, h2.2⟩

/-- C6: after the missing-value fill, no row of the Filtered Table holds
"no value" in any of the seven key fields, and each of those fields
equals the source field with missing replaced by 0 (so a previously
missing entry is exactly 0). -/
theorem claim6_fillna (t : List Record) (o : CleanOutput)
    (h : cleanPipeline t = .ok o) (fr : FilteredRow)
    (hfr : fr ∈ o.df_filtered) :
    fr.record.total_cases.isSome = true ∧
    fr.record.new_cases.isSome = true ∧
    fr.record.total_deaths.isSome = true ∧
    fr.record.new_deaths.isSome = true ∧
    fr.record.total_vaccinations.isSome = true ∧
    fr.record.people_vaccinated.isSome = true ∧
    fr.record.population.isSome = true ∧
    ∃ r, r ∈ t ∧
      fr.record.total_cases = some (r.total_cases.getD 0) ∧
      fr.record.new_cases = some (r.new_cases.getD 0) ∧
      fr.record.total_deaths = some (r.total_deaths.getD 0) ∧
      fr.record.new_deaths = some (r.new_deaths.getD 0) ∧
      fr.record.total_vaccinations = some (r.total_vaccinations.getD 0) ∧
      fr.record.people_vaccinated = some (r.people_vaccinated.getD 0) ∧
      fr.record.population = some (r.population.getD 0) := by
  rcases (mem_df_filtered_iff h).1 hfr with ⟨r2, hr2df, _, rfl⟩
  have hdf := toDatetime_forall₂ (cleanPipeline_inv h).1
  rcases forall₂_mem_right hdf hr2df with ⟨r, hrt, hconv⟩
  obtain ⟨-, -, htc, hnc, htd2, hnd, htv, hpv, hpop, -⟩ := convRel_fields hconv
  refine ⟨rfl, rfl, rfl, rfl, rfl, rfl, rfl, r, hrt,
    ?_, ?_, ?_, ?_, ?_, ?_, ?_⟩
  · rw [← htc]; rfl
  · rw [← hnc]; rfl
  · rw [← htd2]; rfl
  · rw [← hnd]; rfl
  · rw [← htv]; rfl
  · rw [← hpv]; rfl
  · rw [← hpop]; rfl

/-- Witness for C6 at the Kenya row of `TA`, whose source lacks
new_deaths and people_vaccinated: both are filled, and the previously
missing people_vaccinated equals 0. -/
theorem claim6_fillna_witness :
    cleanPipeline TA = .ok OA ∧
    (OA.df_filtered.getD 1 default).record.new_deaths.isSome = true ∧
    (OA.df_filtered.getD 1 default).record.people_vaccinated.isSome = true ∧
    (OA.df_filtered.getD 1 default).record.people_vaccinated = some 0 := by
  have hm : OA.df_filtered.getD 1 default ∈ OA.df_filtered :=
    getD_mem _ 1 _ (by decide)
  have h2 := claim6_fillna TA OA rfl _ hm
  exact ⟨rfl, h2.2.2.2.1, h2.2.2.2.2.2.1, rfl⟩

/-- C7: the fill touches only the filtered copy and only the seven key
fields: every row of the full Table keeps every non-date source field
(in particular, rows of non-configured countries keep their "no value"
entries), and the field outside the fill list
(total_cases_per_million) keeps its source value even inside the
Filtered Table. -/
theorem claim7_no_global_fill (t : List Record) (o : CleanOutput)
    (h : cleanPipeline t = .ok o) :
    List.Forall₂ (fun r r2 =>
      r2.location = r.location ∧
      r2.iso_code = r.iso_code ∧
      r2.total_cases = r.total_cases ∧
      r2.new_cases = r.new_cases ∧
      r2.total_deaths = r.total_deaths ∧
      r2.new_deaths = r.new_deaths ∧
      r2.total_vaccinations = r.total_vaccinations ∧
      r2.people_vaccinated = r.people_vaccinated ∧
      r2.population = r.population ∧
      r2.total_cases_per_million = r.total_cases_per_million) t o.df ∧
    ∀ fr ∈ o.df_filtered, ∃ r, r ∈ t ∧
      fr.record.total_cases_per_million = r.total_cases_per_million := by
  have hdf := toDatetime_forall₂ (cleanPipeline_inv h).1
  constructor
  · exact hdf.imp (fun _ _ hc => convRel_fields hc)
  · intro fr hfr
    rcases (mem_df_filtered_iff h).1 hfr with ⟨r2, hr2df, _, rfl⟩
    rcases forall₂_mem_right hdf hr2df with ⟨r, hrt, hconv⟩
    obtain ⟨-, -, -, -, -, -, -, -, -, hcpm⟩ := convRel_fields hconv
    exact ⟨r, hrt, hcpm⟩

/-- Witness for C7 at the France row of `TA` (not configured): its
missing people_vaccinated stays missing in the full table after the
pipeline; and the Kenya row's total_cases_per_million stays missing
inside the Filtered Table. -/
theorem claim7_no_global_fill_witness :
    cleanPipeline TA = .ok OA ∧
    (TA.getD 2 default).location = "France" ∧
    (TA.getD 2 default).people_vaccinated = none ∧
    (OA.df.getD 2 default).people_vaccinated = none ∧
    (TA.getD 1 default).total_cases_per_million = none ∧
    (OA.df_filtered.getD 1 default).record.total_cases_per_million = none := by
  have h2 := (claim7_no_global_fill TA OA rfl).1
  have h3 := forall₂_getD h2 2 default default (by decide)
  exact ⟨rfl, rfl, rfl, (h3.2.2.2.2.2.2.2.1).trans rfl, rfl, rfl⟩

/-- C8: whenever the date conversion succeeds, the pipeline succeeds
(a country matching zero rows is never fatal), every row of the
Filtered Table has a location exactly matching a configured country,
and a name that matches no source row contributes no rows to the
Filtered Table. -/
theorem claim8_country_filter (t l : List Record)
    (hd : toDatetime t = .ok l) :
    ∃ o, cleanPipeline t = .ok o ∧
      (∀ fr ∈ o.df_filtered, fr.record.location ∈ countries) ∧
      ∀ name, (∀ r ∈ t, r.location ≠ name) →
        ∀ fr ∈ o.df_filtered, fr.record.location ≠ name := by
  have hpl : ∃ o, cleanPipeline t = .ok o := by
    unfold cleanPipeline
    rw [hd]
    exact ⟨_, rfl⟩
  rcases hpl with ⟨o, ho⟩
  refine ⟨o, ho, ?_, ?_⟩
  · intro fr hfr
    rcases (mem_df_filtered_iff ho).1 hfr with ⟨r2, _, hloc, rfl⟩
    exact hloc
  · intro name hname fr hfr
    rcases (mem_df_filtered_iff ho).1 hfr with ⟨r2, hr2df, _, rfl⟩
    have hdf := toDatetime_forall₂ (cleanPipeline_inv ho).1
    rcases forall₂_mem_right hdf hr2df with ⟨r, hrt, hconv⟩
    obtain ⟨hl, -, -, -, -, -, -, -, -, -⟩ := convRel_fields hconv
    have : (fillKey r2).location = r2.location := rfl
    rw [this, hl]
    exact hname r hrt

/-- Witness for C8 on `TA` with the misspelled name "Kenia", which
matches no row: the pipeline still succeeds and no filtered row carries
that name, while filtered rows do carry configured names. -/
theorem claim8_country_filter_witness :
    cleanPipeline TA = .ok OA ∧
    (OA.df_filtered.getD 0 default).record.location ∈ countries ∧
    (OA.df_filtered.getD 0 default).record.location ≠ "Kenia" := by
  rcases claim8_country_filter TA OA.df rfl with ⟨o, ho, hmem, hname⟩
  have h4 : cleanPipeline TA = Except.ok OA := rfl
  rw [ho] at h4
  have hoo : o = OA := Except.ok.inj h4
  subst hoo
  exact ⟨rfl, hmem _ (getD_mem _ 0 _ (by decide)),
    hname "Kenia" (by decide) _ (getD_mem _ 0 _ (by decide))⟩

/-- C9: the country-scoped Latest Snapshot consists exactly of the
Filtered Table's rows whose date equals the maximum date of the
Filtered Table (which is attained), and — assuming the source has at
most one record per location per date — it holds at most one row per
country. -/
theorem claim9_latest_snapshot (t : List Record) (o : CleanOutput)
    (h : cleanPipeline t = .ok o) (m : Nat)
    (hm : o.latest_date = some m) :
    (∀ fr ∈ o.df_latest, fr ∈ o.df_filtered ∧ fr.record.date = DateVal.stamp m) ∧
    (∀ fr ∈ o.df_filtered, fr.record.date = DateVal.stamp m → fr ∈ o.df_latest) ∧
    (∀ fr ∈ o.df_filtered, ∀ n, dateKey fr.record.date = some n → n ≤ m) ∧
    (∃ fr, fr ∈ o.df_filtered ∧ dateKey fr.record.date = some m) ∧
    (List.Pairwise
        (fun r1 r2 => r1.location = r2.location → recDateKey r1 ≠ recDateKey r2) t →
      List.Pairwise
        (fun a b : FilteredRow => a.record.location ≠ b.record.location)
        o.df_latest) := by
  rcases cleanPipeline_inv h with ⟨htd, hfil, hlat, hlatest, -, -⟩
  have hlatest2 : o.df_latest =
      o.df_filtered.filter (fun fr => decide (fr.record.date = DateVal.stamp m)) := by
    rw [hlatest, hm]
  have hmax : maxDate o.df_filtered = some m := by rw [← hlat, hm]
  refine ⟨?_, ?_, ?_, ?_, ?_⟩
  · intro fr hfr
    rw [hlatest2] at hfr
    rcases List.mem_filter.1 hfr with ⟨hmem, hdec⟩
    exact ⟨hmem, of_decide_eq_true hdec⟩
  · intro fr hfr hdate
    rw [hlatest2]
    exact List.mem_filter.2 ⟨hfr, decide_eq_true hdate⟩
  · intro fr hfr n hn
    exact maxDate_le hmax hfr hn
  · exact maxDate_mem hmax
  · intro hpw
    have hdfpw : List.Pairwise
        (fun a b : Record => a.location = b.location →
          dateKey a.date ≠ dateKey b.date) o.df := by
      refine pairwise_of_forall₂ (toDatetime_forall₂ htd) hpw ?_
      intro a a2 b b2 hca hcb hab hloc
      have hfa := convRel_fields hca
      have hfb := convRel_fields hcb
      rcases hca with ⟨-, -, hka⟩
      rcases hcb with ⟨-, -, hkb⟩
      rw [hka, hkb]
      apply hab
      rw [← hfa.1, ← hfb.1]
      exact hloc
    have hfilpw : List.Pairwise
        (fun a b : FilteredRow => a.record.location = b.record.location →
          dateKey a.record.date ≠ dateKey b.record.date) o.df_filtered := by
      rw [hfil, List.pairwise_map, List.pairwise_map]
      exact hdfpw.sublist (List.filter_sublist _)
    rw [hlatest2]
    refine List.Pairwise.imp_of_mem ?_ (hfilpw.sublist (List.filter_sublist _))
    intro a b ha hb hrel hlocEq
    have hda : a.record.date = DateVal.stamp m :=
      of_decide_eq_true (List.mem_filter.1 ha).2
    have hdb : b.record.date = DateVal.stamp m :=
      of_decide_eq_true (List.mem_filter.1 hb).2
    exact hrel hlocEq (by rw [hda, hdb])

/-- Witness for C9 on `TA`: the latest date of the Filtered Table is
2021-04-01, the first snapshot row is a filtered row at that date, and
the snapshot's rows carry pairwise distinct countries. -/
theorem claim9_latest_snapshot_witness :
    cleanPipeline TA = .ok OA ∧
    OA.latest_date = some 20210401 ∧
    OA.df_latest.getD 0 default ∈ OA.df_filtered ∧
    (OA.df_latest.getD 0 default).record.date = DateVal.stamp 20210401 ∧
    (OA.df_latest.getD 0 default).record.location ≠
      (OA.df_latest.getD 1 default).record.location := by
  have h2 := claim9_latest_snapshot TA OA rfl 20210401 rfl
  have h3 := h2.1 (OA.df_latest.getD 0 default)
    (getD_mem OA.df_latest 0 default (by decide))
  have hpw := h2.2.2.2.2 (by decide)
  exact ⟨rfl, rfl, h3.1, h3.2,
    pairwise_getD hpw 0 1 default (by decide) (by decide)⟩

/-- C2 counterexample: in `TA` the United Kingdom row at the latest
date lacks people_vaccinated in the source; after the pipeline it is
present in the ranking data (`df_latest_pct`) with pct_vaccinated = 0,
not excluded and not marked "no value" — because the fill stage zeroed
people_vaccinated before the percentage was computed. -/
theorem claim2_counterexample :
    (TA.getD 3 default).location = "United Kingdom" ∧
    (TA.getD 3 default).people_vaccinated = none ∧
    cleanPipeline TA = .ok OA ∧
    OA.latest_date = some 20210401 ∧
    (OA.df_latest_pct.getD 2 default).row.record.location = "United Kingdom" ∧
    OA.df_latest_pct.length = 3 ∧
    (OA.df_latest_pct.getD 2 default).pct_vaccinated = PFloat.val 0 := by
  refine ⟨rfl, rfl, rfl, rfl, rfl, rfl, ?_⟩
  have h2 : (OA.df_latest_pct.getD 2 default).pct_vaccinated =
      pmul100 (fdiv 0 67000000) := rfl
  rw [h2, fdiv]
  norm_num [pmul100]

/-- C2 amended: every snapshot row is carried into the ranking data
(none is excluded), people_vaccinated and population are always numeric
there (the fill ran first), and pct_vaccinated equals
(people_vaccinated / population) * 100 when population is nonzero — so a
row whose source lacked people_vaccinated shows as 0 — while a zero
population yields NaN when people_vaccinated is 0 and +infinity when it
is positive. -/
theorem claim2_pct_zero_fill (t : List Record) (o : CleanOutput)
    (h : cleanPipeline t = .ok o) :
    o.df_latest_pct.length = o.df_latest.length ∧
    ∀ lr ∈ o.df_latest_pct,
      lr.row.record.people_vaccinated.isSome = true ∧
      lr.row.record.population.isSome = true ∧
      ∀ p q : ℚ, lr.row.record.people_vaccinated = some p →
        lr.row.record.population = some q →
        (q ≠ 0 → lr.pct_vaccinated = PFloat.val (p / q * 100)) ∧
        (q = 0 → p = 0 → lr.pct_vaccinated = PFloat.nan) ∧
        (q = 0 → 0 < p → lr.pct_vaccinated = PFloat.pinf) := by
  rcases cleanPipeline_inv h with ⟨-, -, -, hlatest, hpct, -⟩
  constructor
  · rw [hpct, List.length_map]
  · intro lr hlr
    rw [hpct] at hlr
    rcases List.mem_map.1 hlr with ⟨fr, hfr, rfl⟩
    have hfr2 : fr ∈ o.df_filtered := by
      rw [hlatest] at hfr
      cases hl : o.latest_date with
      | none => rw [hl] at hfr; cases hfr
      | some m =>
        rw [hl] at hfr
        exact (List.mem_filter.1 hfr).1
    rcases (mem_df_filtered_iff h).1 hfr2 with ⟨r2, -, -, rfl⟩
    refine ⟨rfl, rfl, ?_⟩
    intro p q hp hq
    simp only at hp hq
    refine ⟨?_, ?_, ?_⟩
    · intro hqne
      simp [pctVaccinated, pdivCell, hp, hq, fdiv, hqne, pmul100]
    · intro hq0 hp0
      subst hq0
      subst hp0
      simp [pctVaccinated, pdivCell, hp, hq, fdiv, pmul100]
    · intro hq0 hppos
      have hpne : p ≠ 0 := ne_of_gt hppos
      subst hq0
      simp [pctVaccinated, pdivCell, hp, hq, fdiv, hpne, hppos, pmul100]

/-- Witness for the amended C2 at the United Kingdom row of `TA`
(people_vaccinated missing in the source, filled to 0): its
pct_vaccinated is (0 / 67000000) * 100. -/
theorem claim2_pct_zero_fill_witness :
    cleanPipeline TA = .ok OA ∧
    OA.df_latest_pct.length = OA.df_latest.length ∧
    (OA.df_latest_pct.getD 2 default).row.record.people_vaccinated = some 0 ∧
    ((67000000 : ℚ) ≠ 0 →
      (OA.df_latest_pct.getD 2 default).pct_vaccinated =
        PFloat.val (0 / 67000000 * 100)) := by
  have h2 := claim2_pct_zero_fill TA OA rfl
  have h3 := h2.2 (OA.df_latest_pct.getD 2 default)
    (getD_mem OA.df_latest_pct 2 default (by decide))
  exact ⟨rfl, h2.1, rfl, fun hq => (h3.2.2 0 67000000 rfl rfl).1 hq⟩

/-- C3 counterexample: in `TA` the independent maximum date of the full
Table is 2021-04-02 (the France row), yet the code's Global Latest
Snapshot is selected with the Filtered Table's latest date 2021-04-01:
it contains no row dated 2021-04-02 even though the full Table has
one. -/
theorem claim3_counterexample :
    cleanPipeline TA = .ok OA ∧
    specGlobalMaxDate OA.df = some 20210402 ∧
    OA.latest_date = some 20210401 ∧
    (OA.df.filter (fun r => decide (r.date = DateVal.stamp 20210402))).length = 1 ∧
    OA.df_global_latest.filter (fun r => decide (r.date = DateVal.stamp 20210402)) = [] ∧
    OA.df_global_latest.length = 3 :=
  ⟨rfl, rfl, rfl, rfl, rfl, rfl⟩

/-- C3 amended: the Global Latest Snapshot is selected from the full
Table using the same latest_date computed over the Filtered Table — not
an independent max over the full Table — so the global and
country-scoped snapshot dates always coincide. -/
theorem claim3_global_same_date (t : List Record) (o : CleanOutput)
    (h : cleanPipeline t = .ok o) (m : Nat)
    (hm : o.latest_date = some m) :
    (∀ r ∈ o.df_global_latest, r.date = DateVal.stamp m) ∧
    (∀ r ∈ o.df, r.date = DateVal.stamp m → r ∈ o.df_global_latest) ∧
    (∀ fr ∈ o.df_latest, fr.record.date = DateVal.stamp m) := by
  rcases cleanPipeline_inv h with ⟨-, -, -, hlatest, -, hglob⟩
  have hglob2 : o.df_global_latest =
      o.df.filter (fun r => decide (r.date = DateVal.stamp m)) := by
    rw [hglob, hm]
  have hlat2 : o.df_latest =
      o.df_filtered.filter (fun fr => decide (fr.record.date = DateVal.stamp m)) := by
    rw [hlatest, hm]
  refine ⟨?_, ?_, ?_⟩
  · intro r hr
    rw [hglob2] at hr
    exact of_decide_eq_true (List.mem_filter.1 hr).2
  · intro r hr hdate
    rw [hglob2]
    exact List.mem_filter.2 ⟨hr, decide_eq_true hdate⟩
  · intro fr hfr
    rw [hlat2] at hfr
    exact of_decide_eq_true (List.mem_filter.1 hfr).2

/-- Witness for the amended C3 on `TA`: the first global-snapshot row
carries the Filtered Table's latest date. -/
theorem claim3_global_same_date_witness :
    cleanPipeline TA = .ok OA ∧
    OA.latest_date = some 20210401 ∧
    (OA.df_global_latest.getD 0 default).date = DateVal.stamp 20210401 := by
  have h2 := claim3_global_same_date TA OA rfl 20210401 rfl
  exact ⟨rfl, rfl, h2.1 (OA.df_global_latest.getD 0 default)
    (getD_mem OA.df_global_latest 0 default (by decide))⟩

/-- C4 counterexample: on `TB` the Filtered Table is empty, yet the
pipeline succeeds — no EmptyDatasetError (or any error) is raised; the
latest date is the NaT placeholder (`none`) and the snapshots are
empty. -/
theorem claim4_counterexample :
    cleanPipeline TB = .ok OB ∧
    OB.df_filtered = [] ∧
    OB.latest_date = none ∧
    OB.df_latest = [] ∧
    OB.df_global_latest = [] :=
  ⟨rfl, rfl, rfl, rfl, rfl⟩

/-- C4 amended: when the Filtered Table is empty at snapshot time the
pipeline does not fail: latest_date is the missing-date placeholder NaT
(`none`), and the snapshot, the ranking data and the global snapshot
are all empty. -/
theorem claim4_empty_filtered (t : List Record) (o : CleanOutput)
    (h : cleanPipeline t = .ok o) (he : o.df_filtered = []) :
    o.latest_date = none ∧ o.df_latest = [] ∧ o.df_latest_pct = [] ∧
    o.df_global_latest = [] := by
  rcases cleanPipeline_inv h with ⟨-, -, hlat, hlatest, hpct, hglob⟩
  have hnone : o.latest_date = none := by rw [hlat, he]; rfl
  have hlempty : o.df_latest = [] := by rw [hlatest, hnone]
  refine ⟨hnone, hlempty, ?_, ?_⟩
  · rw [hpct, hlempty]; rfl
  · rw [hglob, hnone]

/-- Witness for the amended C4 on `TB`. -/
theorem claim4_empty_filtered_witness :
    cleanPipeline TB = .ok OB ∧ OB.df_filtered = [] ∧
    OB.latest_date = none ∧ OB.df_latest = [] := by
  have h2 := claim4_empty_filtered TB OB rfl rfl
  exact ⟨rfl, rfl, h2.1, h2.2.1⟩

/-- C5 counterexample: with the input file absent, the notebook run
does not end cleanly after the instructional message — the exploration
cell references the unbound `df` and a NameError crash surfaces. -/
theorem claim5_counterexample :
    (runNotebook none).2 = Except.error NBErr.nameError := rfl

/-- C5 amended: when the input file is absent, the load cell catches the
failure and prints the two instructional lines naming the download
location, no Table is produced and the cleaning/filtering/snapshot
stages never run — but the following exploration cell still references
the unbound table and surfaces a NameError crash. -/
theorem claim5_missing_file :
    runNotebook none =
      (["Error: File not found. Please download the dataset first.",
        "Download from: https://ourworldindata.org/covid-cases"],
       Except.error NBErr.nameError) := rfl

/-- C10 counterexample: the date column of the full Table does not
retain its loaded value — the Brazil row is loaded with the text
"2021-04-01" and ends the pipeline holding the parsed date value. -/
theorem claim10_counterexample :
    cleanPipeline TA = .ok OA ∧
    (TA.getD 0 default).date = DateVal.text "2021-04-01" ∧
    (OA.df.getD 0 default).date = DateVal.stamp 20210401 ∧
    (OA.df.getD 0 default).date ≠ (TA.getD 0 default).date :=
  ⟨rfl, rfl, rfl, by decide⟩

/-- C10 amended: after load the full Table is mutated in place exactly
once — the date column is overwritten with parsed date values (the
parse of the loaded text) — while every other source field of every row
retains its loaded value through the end of the pipeline. -/
theorem claim10_date_overwritten (t : List Record) (o : CleanOutput)
    (h : cleanPipeline t = .ok o) :
    o.df.length = t.length ∧
    List.Forall₂ (fun r r2 =>
      r2 = { r with date := r2.date } ∧
      DateVal.isStamp r2.date = true ∧
      dateKey r2.date = recDateKey r) t o.df := by
  have hdf := toDatetime_forall₂ (cleanPipeline_inv h).1
  exact ⟨hdf.length_eq.symm, hdf⟩

/-- Witness for the amended C10 at the Kenya row of `TA`: only its date
changed, to the stamp its text parses to. -/
theorem claim10_date_overwritten_witness :
    cleanPipeline TA = .ok OA ∧
    OA.df.length = TA.length ∧
    OA.df.getD 1 default =
      { TA.getD 1 default with date := (OA.df.getD 1 default).date } ∧
    DateVal.isStamp (OA.df.getD 1 default).date = true ∧
    dateKey (OA.df.getD 1 default).date = recDateKey (TA.getD 1 default) := by
  have h2 := claim10_date_overwritten TA OA rfl
  have h3 := forall₂_getD h2.2 1 default default (by decide)
  exact ⟨rfl, h2.1, h3.1, h3.2.1, h3.2.2⟩

end CovidTracker
